import Mathlib

/-!
Verification of the incremental-knowledge synchronization engine,
a shallow embedding of `create_bot_knowledge.py` and `srcopsmetrics/storage.py`.

Python strings are modelled as Lean `String`; the Python string methods that
the program uses (`str.split(sep)` with a one-character separator,
`str.startswith`, `str.replace(old, '')`) are modelled as executable functions
on the underlying character list. Python `int`s and `float`s are modelled as
`Int` (the program never exercises float rounding), Python `None` as
`Option.none` or `PyVal.none`, raised exceptions as `Except.error`, and
Python `dict`s as insertion-ordered association lists.
-/

/-- Character-list splitter: splits at every character satisfying `p`,
keeping empty chunks, exactly like Python `str.split(sep)` with a
single-character separator (`"a  b".split(' ') == ['a','','b']`,
`"".split(' ') == ['']`). -/
def splitChars (p : Char → Bool) : List Char → List (List Char)
  | [] => [[]]
  | c :: rest =>
    if p c then [] :: splitChars p rest
    else
      match splitChars p rest with
      | [] => [[c]]
      | t :: ts => (c :: t) :: ts

/-- Model of Python `s.split(sep)` for a one-character separator `sep`. -/
def pySplit (sep : Char) (s : String) : List String :=
  (splitChars (fun c => c == sep) s.data).map String.mk

/-- Model of Python `s.startswith(pre)`. -/
def pyStartsWith (pre : String) (s : String) : Bool :=
  pre.data.isPrefixOf s.data

/-- Model of Python `word.replace(':', '')`: every colon is removed,
wherever it occurs in the string. -/
def removeColons (w : String) : String :=
  String.mk (w.data.filter (fun c => !(c == ':')))

/-- Model of Python `url.split('/')[-1]`: the final path segment.
`pySplit` never returns an empty list, so the default is never used. -/
def lastSegment (s : String) : String :=
  (pySplit '/' s).getLastD ""

/-!  Decimal conversion: models of Python `str(n)` and `int(s)` for the
nonnegative decimal identifier strings the program stores as Snapshot keys. -/

/-- Little-endian decimal digits of `n`; the fuel argument (instantiated with
`n` itself) makes the recursion structural. -/
def decDigitsAux : Nat → Nat → List Nat
  | 0, _ => []
  | fuel + 1, n => if n = 0 then [] else n % 10 :: decDigitsAux fuel (n / 10)

/-- Model of Python `str(n)` for a nonnegative integer `n`. -/
def pyStrOfNat (n : Nat) : String :=
  if n = 0 then "0"
  else String.mk ((decDigitsAux n n).reverse.map (fun d => Char.ofNat (48 + d)))

/-- Value of a little-endian list of decimal digits. -/
def decValue : List Nat → Nat
  | [] => 0
  | d :: ds => d + 10 * decValue ds

/-- Model of Python `int(s)` on the strings this program feeds it
(nonnegative decimal numerals); any other string raises `ValueError`,
modelled as `Option.none`. -/
def pyIntOfString (s : String) : Option Nat :=
  if s.data ≠ [] ∧ s.data.all (fun c => c.isDigit) then
    some (decValue ((s.data.map (fun c => c.toNat - 48)).reverse))
  else
    Option.none

/-!  Python dictionaries and JSON-serializable values. -/

/-- A Python dictionary key as used by this program: JSON-parsed Snapshots
have `str` keys, while `store_issue` and `extract_pullrequest_reviews`
insert under `int` keys. -/
inductive PyKey where
  | str (s : String)
  | int (n : Nat)
deriving DecidableEq

/-- A Python value as stored in a Snapshot record.  Python numbers
(`int` and `float` alike) are modelled as `Int`: the program only ever
subtracts and stores timestamps, so float semantics are never exercised. -/
inductive PyVal where
  | none
  | bool (b : Bool)
  | int (n : Int)
  | str (s : String)
  | list (xs : List PyVal)
  | dict (kvs : List (PyKey × PyVal))

/-- An in-memory Snapshot: a Python dict from entity identifier to record,
in insertion order. -/
abbrev Snapshot : Type := List (PyKey × PyVal)

/-- Lookup in a Python dict modelled as an association list. -/
def dlookup {κ ν : Type} [DecidableEq κ] : List (κ × ν) → κ → Option ν
  | [], _ => Option.none
  | p :: rest, k => if p.1 = k then some p.2 else dlookup rest k

/-- Model of Python dict assignment `d[k] = v`: replace the binding in place
if the key is present (Python dicts keep insertion order on overwrite),
otherwise append the new binding at the end. -/
def dictInsert {κ ν : Type} [DecidableEq κ] : List (κ × ν) → κ → ν → List (κ × ν)
  | [], k, v => [(k, v)]
  | p :: rest, k, v => if p.1 = k then (k, v) :: rest else p :: dictInsert rest k v

/-- Model of a Python list comprehension `[f(x) for x in l]` whose body can
raise (`Option.none`): the first failure aborts the whole comprehension. -/
def mapOption {α β : Type} (f : α → Option β) : List α → Option (List β)
  | [] => some []
  | a :: l =>
    match f a, mapOption f l with
    | some b, some bs => some (b :: bs)
    | _, _ => Option.none

/-- JSON serialization of a dict key: `json.dump` renders `int` keys as
their decimal string. -/
def encodeKey : PyKey → String
  | .str s => s
  | .int n => pyStrOfNat n

/-- The Snapshot as it reads back after `json.dump` followed by `json.load`:
every key has become a string. -/
def encodeSnap (d : Snapshot) : Snapshot :=
  d.map (fun p => (PyKey.str (encodeKey p.1), p.2))

/-- A JSON-parsed Snapshot (all keys strings) viewed as an in-memory dict. -/
def strSnap (S : List (String × PyVal)) : Snapshot :=
  S.map (fun p => (PyKey.str p.1, p.2))

/-- A value `json.dump` serializes and `json.load` parses back unchanged:
every dict key, at every depth, is already a string. -/
inductive JsonCompatible : PyVal → Prop where
  | none : JsonCompatible PyVal.none
  | bool (b : Bool) : JsonCompatible (PyVal.bool b)
  | int (n : Int) : JsonCompatible (PyVal.int n)
  | str (s : String) : JsonCompatible (PyVal.str s)
  | list (xs : List PyVal) : (∀ x ∈ xs, JsonCompatible x) → JsonCompatible (PyVal.list xs)
  | dict (kvs : List (PyKey × PyVal)) :
      (∀ p ∈ kvs, ∃ s, p.1 = PyKey.str s) →
      (∀ p ∈ kvs, JsonCompatible p.2) →
      JsonCompatible (PyVal.dict kvs)

/-!  The remote entities handed over by the GitHub client, with exactly the
attributes the program reads. -/

/-- A GitHub account; the program only ever reads `.login`. -/
structure User where
  login : String
deriving DecidableEq

/-- An issue or pull-request comment (`get_comments` / `get_issue_comments`). -/
structure Comment where
  user : User
  body : String
deriving DecidableEq

/-- A pull-request review (`get_reviews`). -/
structure Review where
  id : Nat
  user : User
  body : String
  submitted_at : Int
  state : String

/-- A closed issue as listed by `project.get_issues(state='closed')`.
`labels` holds the `.name` of each label object; `pull_request` is `some`
when the issue is really a pull request; timestamps are `.timestamp()`
values. -/
structure Issue where
  number : Nat
  user : User
  created_at : Int
  closed_at : Int
  closed_by : User
  labels : List String
  comments : List Comment
  pull_request : Option Unit

/-- A closed pull request as listed by `project.get_pulls(state='closed')`.
`closed_by` is `as_issue().closed_by`; `requested_reviewers` is the user
list in `get_review_requests()[0]`. -/
structure PullRequest where
  number : Nat
  commits : Int
  created_at : Int
  closed_at : Int
  merged_at : Option Int
  labels : List String
  user : User
  closed_by : User
  comments : List Comment
  reviews : List Review
  requested_reviewers : List User

/-- Python duck typing: `get_only_new_entities` reads `.number` off both
issues and pull requests. -/
class HasNumber (α : Type) where
  number : α → Nat

instance : HasNumber Issue := ⟨Issue.number⟩

instance : HasNumber PullRequest := ⟨PullRequest.number⟩

/-- Model of Python `int(id)` applied to a dict key: string keys are parsed
as decimal numerals, integer keys pass through. -/
def pyIntOfKey : PyKey → Option Nat
  | .str s => pyIntOfString s
  | .int n => some n

/-!  Shallow embedding of `create_bot_knowledge.py`. -/

namespace CBK

/-- The closing keywords scanned for in pull-request comments
(`ISSUE_KEYWORDS` in the source, a set; membership is all that is used). -/
def ISSUE_KEYWORDS : List String :=
  ["close", "closes", "closed", "fix", "fixes", "fixed",
   "resolve", "resolves", "resolved"]

/-- The `STANDALONE_LABELS` exclusion set. -/
def STANDALONE_LABELS : List String := ["size"]

/-- Embedding of `get_labeled_size`: the first label starting with
`"size"` is split on `'/'` and its second piece returned; the index access
`[1]` raises `IndexError` (modelled `Except.error`) when that label contains
no `'/'`; if no label starts with `"size"` the loop falls through and
Python returns `None`. -/
def get_labeled_size : List String → Except Unit (Option String)
  | [] => .ok Option.none
  | label :: rest =>
    if pyStartsWith "size" label then
      match (pySplit '/' label)[1]? with
      | some sz => .ok (some sz)
      | Option.none => .error ()
    else get_labeled_size rest

/-- Embedding of `get_non_standalone_labels`: keep the labels that are not
(exactly) a member of `STANDALONE_LABELS`. -/
def get_non_standalone_labels (labels : List String) : List String :=
  labels.filter (fun label => !(STANDALONE_LABELS.contains label))

/-- The inner loop of `get_referenced_issues` over one tokenized comment
body: `for idx, word in enumerate(message)`; a keyword match (after
`word.replace(':', '')`) looks at `message[idx+1]`; `IndexError` (no next
token) and `AssertionError` (next token not starting with `"https"`) are
caught and skip just this occurrence. -/
def scan_comment (message : List String) : List String :=
  (List.range message.length).filterMap (fun idx =>
    match message[idx]? with
    | Option.none => Option.none
    | some word =>
      if ISSUE_KEYWORDS.contains (removeColons word) then
        match message[idx + 1]? with
        | Option.none => Option.none
        | some nxt =>
          if pyStartsWith "https" nxt then some (lastSegment nxt)
          else Option.none
      else Option.none)

/-- Embedding of `get_referenced_issues`: scan every issue comment of the
pull request, accumulating references in order. -/
def get_referenced_issues (pull_request : PullRequest) : List String :=
  pull_request.comments.foldl
    (fun issues_referenced comment =>
      issues_referenced ++ scan_comment (pySplit ' ' comment.body)) []

/-- Embedding of `get_only_new_entities`: parse every previous key with
`int` (a failure there is a raised `ValueError`, modelled `Option.none`),
diff the current `.number`s against them, and keep the listed entities whose
number survives.  Python's `set` difference is modelled by a list filter,
which has the same membership semantics. -/
def get_only_new_entities {α : Type} [HasNumber α]
    (old_data : Snapshot) (new_data : List α) : Option (List α) :=
  match mapOption pyIntOfKey (old_data.map Prod.fst) with
  | Option.none => Option.none
  | some old_knowledge_ids =>
    let new_knowledge_ids := new_data.map HasNumber.number
    let only_new_ids :=
      new_knowledge_ids.filter (fun i => !(old_knowledge_ids.contains i))
    some (new_data.filter (fun x => only_new_ids.contains (HasNumber.number x)))

/-- Model of `interactions[login] += n` for a dict known to contain `login`
(the comprehension below initialises every author); on an absent key Python
would raise `KeyError`, which cannot happen here, so the model leaves the
dict unchanged in that unreachable case. -/
def dictIncr (d : List (String × Nat)) (k : String) (n : Nat) : List (String × Nat) :=
  match dlookup d k with
  | some v => dictInsert d k (v + n)
  | Option.none => d

/-- Embedding of `get_interactions`: initialise every comment author to 0,
then add each comment's `len(body.split(' '))` to its author. -/
def get_interactions (comments : List Comment) : List (String × Nat) :=
  let interactions := comments.foldl
    (fun d comment => dictInsert d comment.user.login 0) []
  comments.foldl
    (fun d comment => dictIncr d comment.user.login (pySplit ' ' comment.body).length)
    interactions

/-- Embedding of `store_issue`: skip entities that are really pull requests,
otherwise insert the extracted record under the *integer* key
`issue.number`. -/
def store_issue (issue : Issue) (data : Snapshot) : Snapshot :=
  if issue.pull_request.isSome then data
  else
    let created_at := issue.created_at
    let closed_at := issue.closed_at
    let time_to_close := closed_at - created_at
    let labels := issue.labels
    dictInsert data (PyKey.int issue.number) (PyVal.dict
      [(PyKey.str "created_by", PyVal.str issue.user.login),
       (PyKey.str "created_at", PyVal.int created_at),
       (PyKey.str "closed_by", PyVal.str issue.closed_by.login),
       (PyKey.str "closed_at", PyVal.int closed_at),
       (PyKey.str "labels",
        PyVal.list ((get_non_standalone_labels labels).map PyVal.str)),
       (PyKey.str "time_to_close", PyVal.int time_to_close),
       (PyKey.str "interactions",
        PyVal.dict ((get_interactions issue.comments).map
          (fun p => (PyKey.str p.1, PyVal.int (p.2 : Int)))))])

/-- The extraction loop of `analyse_issues` (lines 255-257): run
`store_issue` over each new issue, mutating the loaded dict. -/
def store_issues : List Issue → Snapshot → Snapshot
  | [], data => data
  | issue :: rest, data => store_issues rest (store_issue issue data)

/-- Embedding of `extract_pullrequest_review_requests`: the logins of the
requested reviewers, in order. -/
def extract_pullrequest_review_requests (pullrequest : PullRequest) : List String :=
  pullrequest.requested_reviewers.foldl (fun extracted user => extracted ++ [user.login]) []

/-- Embedding of `extract_pullrequest_reviews`: one record per review,
keyed by the *integer* `review.id`. -/
def extract_pullrequest_reviews (pullrequest : PullRequest) : List (PyKey × PyVal) :=
  pullrequest.reviews.foldl
    (fun results review => dictInsert results (PyKey.int review.id) (PyVal.dict
      [(PyKey.str "author", PyVal.str review.user.login),
       (PyKey.str "words_count", PyVal.int ((pySplit ' ' review.body).length : Int)),
       (PyKey.str "submitted_at", PyVal.int review.submitted_at),
       (PyKey.str "state", PyVal.str review.state)]))
    []

/-- Embedding of `store_pullrequest`: insert the extracted record under the
*string* key `str(pull.number)`; `get_labeled_size` can raise, which aborts
the whole call. -/
def store_pullrequest (pull : PullRequest) (results : Snapshot) :
    Except Unit Snapshot :=
  let commits := pull.commits
  let created_at := pull.created_at
  let closed_at := pull.closed_at
  let merged_at := pull.merged_at
  let labels := pull.labels
  match get_labeled_size labels with
  | .error e => .error e
  | .ok size =>
    .ok (dictInsert results (PyKey.str (pyStrOfNat pull.number)) (PyVal.dict
    [(PyKey.str "size",
      match size with | some s => PyVal.str s | Option.none => PyVal.none),
     (PyKey.str "labels",
      PyVal.list ((get_non_standalone_labels labels).map PyVal.str)),
     (PyKey.str "created_by", PyVal.str pull.user.login),
     (PyKey.str "created_at", PyVal.int created_at),
     (PyKey.str "closed_at", PyVal.int closed_at),
     (PyKey.str "closed_by", PyVal.str pull.closed_by.login),
     (PyKey.str "time_to_close", PyVal.int (closed_at - created_at)),
     (PyKey.str "merged_at",
      match merged_at with | some t => PyVal.int t | Option.none => PyVal.none),
     (PyKey.str "commits_number", PyVal.int commits),
     (PyKey.str "referenced_issues",
      PyVal.list ((get_referenced_issues pull).map PyVal.str)),
     (PyKey.str "interactions",
      PyVal.dict ((get_interactions pull.comments).map
        (fun p => (PyKey.str p.1, PyVal.int (p.2 : Int))))),
     (PyKey.str "reviews", PyVal.dict (extract_pullrequest_reviews pull)),
     (PyKey.str "requested_reviewers",
      PyVal.list ((extract_pullrequest_review_requests pull).map PyVal.str))]))

/-- The extraction loop of `analyse_pullrequests` (lines 377-381): a raised
exception aborts the loop (and the cycle) without saving. -/
def store_pullrequests : List PullRequest → Snapshot → Except Unit Snapshot
  | [], results => .ok results
  | pull :: rest, results =>
    match store_pullrequest pull results with
    | .ok results2 => store_pullrequests rest results2
    | .error e => .error e

/-- A file on disk: present but zero-length, or present with a JSON
document.  A path absent from the store models a non-existent file.
The stored document is kept in parsed form: the round trip
`json.dump` / `json.load` is the identity on JSON-compatible values except
that every dict key is rendered as a string, which `encodeSnap` applies at
the Snapshot level (the only level where this program has non-string
keys that any claim observes). -/
inductive FileState where
  | empty
  | content (doc : PyVal)

/-- The world the two storage backends act on, plus a write journal:
`journal` records every path passed to a save operation, so "the save
operation was not invoked" is expressible as journal preservation. -/
structure World where
  files : List (String × FileState)
  ceph : List (String × PyVal)
  journal : List String

/-- Embedding of `save_knowledge` (the local one in
`create_bot_knowledge.py`): write `{"results": data}` as JSON to
`file_path`. -/
def save_knowledge (w : World) (file_path : String) (data : Snapshot) : World :=
  let results := PyVal.dict [(PyKey.str "results", PyVal.dict (encodeSnap data))]
  { w with
    files := dictInsert w.files file_path (FileState.content results)
    journal := w.journal ++ [file_path] }

/-- Embedding of `load_previous_knowledge` (the local one in
`create_bot_knowledge.py`): a missing or zero-length file yields the empty
dict; otherwise the file is parsed and `data['results']` returned.  A
document without a `'results'` key raises `KeyError`; a non-dict document
or a non-dict `'results'` value makes the subsequent dict operations raise,
both modelled as `Except.error`. -/
def load_previous_knowledge (w : World) (repo_path : String) : Except Unit Snapshot :=
  match dlookup w.files repo_path with
  | Option.none => .ok []
  | some FileState.empty => .ok []
  | some (FileState.content data) =>
    match data with
    | PyVal.dict kvs =>
      match dlookup kvs (PyKey.str "results") with
      | some (PyVal.dict results) => .ok results
      | some _ => .error ()
      | Option.none => .error ()
    | _ => .error ()

/-- Embedding of `analyse_issues`: load, filter out pull requests, diff,
and — only when something new exists — extract and save. -/
def analyse_issues (w : World) (project_knowledge : String) (issues : List Issue) :
    Except Unit World :=
  let data_path := project_knowledge ++ "/issues.json"
  match load_previous_knowledge w data_path with
  | .error e => .error e
  | .ok data =>
    let current_issues := issues.filter (fun issue => issue.pull_request.isNone)
    match get_only_new_entities data current_issues with
    | Option.none => .error ()
    | some new_issues =>
      if new_issues.length = 0 then .ok w
      else .ok (save_knowledge w data_path (store_issues new_issues data))

/-- Embedding of `analyse_pullrequests`: load, diff, and — only when
something new exists — extract and save. -/
def analyse_pullrequests (w : World) (project_knowledge : String)
    (pulls : List PullRequest) : Except Unit World :=
  let pulls_data_path := project_knowledge ++ "/pull_requests.json"
  match load_previous_knowledge w pulls_data_path with
  | .error e => .error e
  | .ok prev_pulls =>
    match get_only_new_entities prev_pulls pulls with
    | Option.none => .error ()
    | some new_pulls =>
      if new_pulls.length = 0 then .ok w
      else
        match store_pullrequests new_pulls prev_pulls with
        | .error e => .error e
        | .ok merged => .ok (save_knowledge w pulls_data_path merged)

end CBK

/-!  Shallow embedding of `srcopsmetrics/storage.py` (`KnowledgeStorage`). -/

namespace KS

/-- The `_FILENAME_ENTITY` dict: entity kind to file basename. -/
def FILENAME_ENTITY : List (String × String) :=
  [("Issue", "issues"), ("PullRequest", "pull_requests")]

/-- The per-instance state of `KnowledgeStorage`: the backend mode flag. -/
structure KnowledgeStorage where
  is_local : Bool

/-- Model of `os.path.relpath(file_path).replace("./", "")`: the paths this
program derives are already relative, so `relpath` is the identity and only
the `"./"` removal acts. -/
def removeDotSlash : List Char → List Char
  | [] => []
  | '.' :: '/' :: rest => removeDotSlash rest
  | c :: rest => c :: removeDotSlash rest

/-- The Ceph object key derived from a file path (identical expression in
`save_knowledge` and `load_remotely`). -/
def ceph_filename (file_path : String) : String :=
  String.mk (removeDotSlash file_path.data)

/-- Embedding of `KnowledgeStorage.save_knowledge`: wrap the Snapshot as
`{"results": data}` and either `store_document` it on Ceph or dump it to the
local file, depending on the mode flag chosen at construction. -/
def save_knowledge (self : KnowledgeStorage) (w : CBK.World) (file_path : String)
    (data : Snapshot) : CBK.World :=
  let results := PyVal.dict [(PyKey.str "results", PyVal.dict (encodeSnap data))]
  if !self.is_local then
    { w with
      ceph := dictInsert w.ceph (ceph_filename file_path) results
      journal := w.journal ++ [file_path] }
  else
    { w with
      files := dictInsert w.files file_path (CBK.FileState.content results)
      journal := w.journal ++ [file_path] }

/-- Embedding of `KnowledgeStorage.load_locally`: a missing or zero-length
file returns `None`; otherwise the parsed document's `"results"` entry is
returned (a document that is not a dict, or has no `"results"` key, raises,
modelled `Except.error`). -/
def load_locally (w : CBK.World) (file_path : String) : Except Unit (Option PyVal) :=
  match dlookup w.files file_path with
  | Option.none => .ok Option.none
  | some CBK.FileState.empty => .ok Option.none
  | some (CBK.FileState.content data) =>
    match data with
    | PyVal.dict kvs =>
      match dlookup kvs (PyKey.str "results") with
      | some results => .ok (some results)
      | Option.none => .error ()
    | _ => .error ()

/-- Embedding of `KnowledgeStorage.load_remotely`: `retrieve_document` with
a missing key raises `NotFoundError`, which is caught, falling off the end
of the function (Python then returns `None`); a present document's
`"results"` entry is returned (`KeyError` on a document without one is not
caught). -/
def load_remotely (w : CBK.World) (file_path : String) : Except Unit (Option PyVal) :=
  match dlookup w.ceph (ceph_filename file_path) with
  | Option.none => .ok Option.none
  | some doc =>
    match doc with
    | PyVal.dict kvs =>
      match dlookup kvs (PyKey.str "results") with
      | some results => .ok (some results)
      | Option.none => .error ()
    | _ => .error ()

/-- Embedding of `KnowledgeStorage.load_previous_knowledge`: look up the
entity-kind filename (`KeyError` on an unknown kind), take the given path or
derive the default one, dispatch on the mode flag, and map a `None` result
to the empty dict. -/
def load_previous_knowledge (self : KnowledgeStorage) (w : CBK.World)
    (project_name : String) (file_path : Option String) (knowledge_type : String) :
    Except Unit PyVal :=
  match dlookup FILENAME_ENTITY knowledge_type with
  | Option.none => .error ()
  | some filename =>
    let path :=
      match file_path with
      | Option.none =>
        "srcopsmetrics/bot_knowledge/" ++ project_name ++ "/" ++ filename ++ ".json"
      | some p => p
    match (if !self.is_local then load_remotely w path else load_locally w path) with
    | .error e => .error e
    | .ok Option.none => .ok (PyVal.dict [])
    | .ok (some r) => .ok r

end KS

namespace CBK

/-- Pairwise reading of the comment scanner over one token list: each token
is matched (after removing its colons) against the closing keywords, and a
match yields the final path segment of the immediately following token when
that token exists and starts with `"https"`.  This is the loop of
`get_referenced_issues` re-stated without index arithmetic; the lemma
`scan_comment_eq_refs_of_tokens` below proves the two agree. -/
def refs_of_tokens : List String → List String
  | [] => []
  | [_] => []
  | w :: nxt :: rest =>
    (if ISSUE_KEYWORDS.contains (removeColons w) && pyStartsWith "https" nxt
     then [lastSegment nxt] else []) ++ refs_of_tokens (nxt :: rest)

/-- Modelled from the spec: a token "with any trailing colon stripped". -/
def stripTrailingColon (w : String) : String :=
  if w.data.getLast? = some ':' then String.mk w.data.dropLast else w

/-- Modelled from the spec: the scanner as the specification describes it,
matching a token against the closing keywords after stripping only a
*trailing* colon (the code instead removes every colon in the token). -/
def spec_refs_of_tokens : List String → List String
  | [] => []
  | [_] => []
  | w :: nxt :: rest =>
    (if ISSUE_KEYWORDS.contains (stripTrailingColon w) && pyStartsWith "https" nxt
     then [lastSegment nxt] else []) ++ spec_refs_of_tokens (nxt :: rest)

/-- Modelled from the spec: the whole scan, as specified, over a sequence of
comment bodies. -/
def spec_scan_bodies (bodies : List String) : List String :=
  (bodies.map (fun b => spec_refs_of_tokens (pySplit ' ' b))).flatten

/-- Modelled from the spec: word count "by splitting the body on whitespace"
(Python `body.split()`): whitespace-delimited tokens, empty tokens dropped. -/
def whitespace_word_count (s : String) : Nat :=
  ((splitChars (fun c => c.isWhitespace) s.data).filter (fun t => !t.isEmpty)).length

/-- A pull request with the given comment bodies and neutral other fields,
used to instantiate the scanner on concrete inputs. -/
def mkPR (bodies : List String) : PullRequest :=
  { number := 1, commits := 0, created_at := 0, closed_at := 0,
    merged_at := Option.none, labels := [], user := ⟨"author"⟩,
    closed_by := ⟨"closer"⟩,
    comments := bodies.map (fun b => ⟨⟨"commenter"⟩, b⟩),
    reviews := [], requested_reviewers := [] }

end CBK

namespace CBK

/-- An issue with the given number and neutral other fields, used to
instantiate theorems on concrete inputs. -/
def mkIssue (n : Nat) : Issue :=
  { number := n, user := ⟨"author"⟩, created_at := 0, closed_at := 10,
    closed_by := ⟨"closer"⟩, labels := ["bug"], comments := [],
    pull_request := Option.none }

/-- A pull request with the given number and neutral other fields, used to
instantiate theorems on concrete inputs. -/
def mkPull (n : Nat) : PullRequest :=
  { number := n, commits := 1, created_at := 0, closed_at := 10,
    merged_at := Option.none, labels := [], user := ⟨"author"⟩,
    closed_by := ⟨"closer"⟩, comments := [], reviews := [],
    requested_reviewers := [] }

end CBK

namespace CBK

/-- The total `split(' ')` token count of the comments a given author wrote. -/
def authorWeight (comments : List Comment) (a : String) : Nat :=
  ((comments.filter (fun c => c.user.login == a)).map
    (fun c => (pySplit ' ' c.body).length)).sum

end CBK

/-!  Decimal conversion correctness. -/

theorem decDigitsAux_eq_of_le (fuel n : Nat) (h : n ≤ fuel) :
    decValue (decDigitsAux fuel n) = n := by
  induction fuel generalizing n with
  | zero => interval_cases n; simp [decDigitsAux, decValue]
  | succ fuel ih =>
    by_cases h0 : n = 0
    · simp [decDigitsAux, h0, decValue]
    · have hdiv : n / 10 ≤ fuel := by
        have := Nat.div_lt_self (Nat.pos_of_ne_zero h0) (by norm_num : 1 < 10)
        omega
      simp only [decDigitsAux, h0, if_false, decValue, ih _ hdiv]
      omega

theorem decDigitsAux_lt (fuel n : Nat) : ∀ d ∈ decDigitsAux fuel n, d < 10 := by
  induction fuel generalizing n with
  | zero => simp [decDigitsAux]
  | succ fuel ih =>
    by_cases h0 : n = 0
    · simp [decDigitsAux, h0]
    · simp only [decDigitsAux, h0, if_false, List.mem_cons]
      rintro d (rfl | hd)
      · exact Nat.mod_lt _ (by norm_num)
      · exact ih _ d hd

theorem digit_char_isDigit (d : Nat) (h : d < 10) :
    (Char.ofNat (48 + d)).isDigit = true := by
  interval_cases d <;> decide

theorem digit_char_toNat (d : Nat) (h : d < 10) :
    (Char.ofNat (48 + d)).toNat - 48 = d := by
  interval_cases d <;> decide

/-- Round trip: parsing the decimal rendering of `n` gives back `n`
(the model of Python `int(str(n)) == n`). -/
theorem pyIntOfString_pyStrOfNat (n : Nat) :
    pyIntOfString (pyStrOfNat n) = some n := by
  by_cases h0 : n = 0
  · subst h0; decide
  · have hne : decDigitsAux n n ≠ [] := by
      cases hn : n with
      | zero => exact absurd hn h0
      | succ m => simp [decDigitsAux, hn.symm ▸ h0, hn]
    unfold pyStrOfNat
    simp only [h0, if_false]
    unfold pyIntOfString
    have hlt := decDigitsAux_lt n n
    have hall : ((decDigitsAux n n).reverse.map (fun d => Char.ofNat (48 + d))).all
        (fun c => c.isDigit) = true := by
      rw [List.all_eq_true]
      intro c hc
      rw [List.mem_map] at hc
      obtain ⟨d, hd, rfl⟩ := hc
      rw [List.mem_reverse] at hd
      exact digit_char_isDigit d (hlt d hd)
    have hdata : (String.mk ((decDigitsAux n n).reverse.map
        (fun d => Char.ofNat (48 + d)))).data
        = (decDigitsAux n n).reverse.map (fun d => Char.ofNat (48 + d)) := rfl
    rw [hdata]
    have hnonnil : (decDigitsAux n n).reverse.map (fun d => Char.ofNat (48 + d)) ≠ [] := by
      simp [hne]
    rw [if_pos ⟨hnonnil, hall⟩]
    congr 1
    have hmap : ((decDigitsAux n n).reverse.map (fun d => Char.ofNat (48 + d))).map
        (fun c => c.toNat - 48) = (decDigitsAux n n).reverse := by
      rw [List.map_map]
      have : ∀ d ∈ (decDigitsAux n n).reverse,
          ((fun c => c.toNat - 48) ∘ (fun d => Char.ofNat (48 + d))) d = id d := by
        intro d hd
        rw [List.mem_reverse] at hd
        exact digit_char_toNat d (hlt d hd)
      rw [List.map_congr_left this, List.map_id]
    rw [hmap, List.reverse_reverse]
    exact decDigitsAux_eq_of_le n n le_rfl

/-- Decimal rendering is injective (two distinct numbers never produce the
same Snapshot key string). -/
theorem pyStrOfNat_injective : Function.Injective pyStrOfNat := by
  intro a b h
  have ha := pyIntOfString_pyStrOfNat a
  have hb := pyIntOfString_pyStrOfNat b
  rw [h, hb] at ha
  exact (Option.some_injective _ ha).symm

/-!  Association-list (Python dict) lemmas. -/

theorem dlookup_dictInsert_self {κ ν : Type} [DecidableEq κ]
    (d : List (κ × ν)) (k : κ) (v : ν) :
    dlookup (dictInsert d k v) k = some v := by
  induction d with
  | nil => simp [dictInsert, dlookup]
  | cons p rest ih =>
    by_cases h : p.1 = k
    · simp [dictInsert, h, dlookup]
    · simp [dictInsert, h, dlookup, ih]

theorem dlookup_dictInsert_ne {κ ν : Type} [DecidableEq κ]
    (d : List (κ × ν)) (k k' : κ) (v : ν) (h : k' ≠ k) :
    dlookup (dictInsert d k v) k' = dlookup d k' := by
  induction d with
  | nil => simp [dictInsert, dlookup, Ne.symm h]
  | cons p rest ih =>
    by_cases hp : p.1 = k
    · subst hp
      simp [dictInsert, dlookup, Ne.symm h, fun hh : p.1 = k' => h hh.symm]
    · simp only [dictInsert, hp, if_false]
      by_cases hp' : p.1 = k'
      · simp [dlookup, hp']
      · simp [dlookup, hp', ih]

theorem mem_keys_dictInsert {κ ν : Type} [DecidableEq κ]
    (d : List (κ × ν)) (k k' : κ) (v : ν) (h : k' ∈ d.map Prod.fst) :
    k' ∈ (dictInsert d k v).map Prod.fst := by
  induction d with
  | nil => simp at h
  | cons p rest ih =>
    rw [List.map_cons, List.mem_cons] at h
    by_cases hp : p.1 = k
    · rcases h with h | h
      · subst hp
        simp [dictInsert, h]
      · simp [dictInsert, hp, h]
    · rcases h with h | h
      · simp [dictInsert, hp, h]
      · simp [dictInsert, hp, ih h]

theorem dictInsert_append_of_fresh {κ ν : Type} [DecidableEq κ]
    (d₀ rest : List (κ × ν)) (k : κ) (v : ν) (h : ∀ p ∈ d₀, p.1 ≠ k) :
    dictInsert (d₀ ++ rest) k v = d₀ ++ dictInsert rest k v := by
  induction d₀ with
  | nil => rfl
  | cons p d ih =>
    have hp : p.1 ≠ k := h p (List.mem_cons_self p d)
    simp only [List.cons_append, dictInsert, hp, if_false, List.append_eq]
    rw [ih (fun q hq => h q (List.mem_cons_of_mem p hq))]

theorem dlookup_append_left {κ ν : Type} [DecidableEq κ]
    (d₀ rest : List (κ × ν)) (k : κ) (h : dlookup d₀ k = Option.none) :
    dlookup (d₀ ++ rest) k = dlookup rest k := by
  induction d₀ with
  | nil => rfl
  | cons p d ih =>
    by_cases hp : p.1 = k
    · simp [dlookup, hp] at h
    · simp only [dlookup, hp, if_false] at h
      simp [List.cons_append, dlookup, hp, ih h]

theorem mapOption_eq_some {α β : Type} (f : α → Option β) :
    ∀ {l : List α} {bs : List β}, mapOption f l = some bs →
      ∀ a ∈ l, ∃ b ∈ bs, f a = some b := by
  intro l
  induction l with
  | nil => simp
  | cons a l ih =>
    intro bs h x hx
    unfold mapOption at h
    cases hfa : f a with
    | none => rw [hfa] at h; simp at h
    | some b =>
      cases hml : mapOption f l with
      | none => rw [hfa, hml] at h; simp at h
      | some bs' =>
        rw [hfa, hml] at h
        simp only [Option.some_inj] at h
        subst h
        rcases List.mem_cons.1 hx with rfl | hx'
        · exact ⟨b, List.mem_cons_self b bs', hfa⟩
        · obtain ⟨b', hb', hfb'⟩ := ih hml x hx'
          exact ⟨b', List.mem_cons_of_mem b hb', hfb'⟩

/-- The diff step, characterised: when every previous key parses, the
result keeps exactly the listed entities whose number is not among the
parsed previous identifiers. -/
theorem get_only_new_entities_eq {α : Type} [HasNumber α]
    (old_data : Snapshot) (P : List Nat)
    (hP : mapOption pyIntOfKey (old_data.map Prod.fst) = some P)
    (new_data : List α) :
    CBK.get_only_new_entities old_data new_data
      = some (new_data.filter (fun x => !(P.contains (HasNumber.number x)))) := by
  unfold CBK.get_only_new_entities
  rw [hP]
  simp only [Option.some_inj]
  apply List.filter_congr
  intro x hx
  by_cases hmem : HasNumber.number x ∈ P
  · have h1 : (List.filter (fun i => !(P.contains i))
        (new_data.map HasNumber.number)).contains (HasNumber.number x) = false := by
      rw [Bool.eq_false_iff]
      intro hcon
      have := List.elem_iff.1 hcon
      rw [List.mem_filter] at this
      simp [List.elem_iff, hmem] at this
    simp [h1, List.elem_iff, hmem]
  · have h1 : (List.filter (fun i => !(P.contains i))
        (new_data.map HasNumber.number)).contains (HasNumber.number x) = true := by
      rw [List.elem_iff, List.mem_filter]
      refine ⟨List.mem_map_of_mem _ hx, ?_⟩
      simp [List.elem_iff, hmem]
    rw [h1]
    simp [List.elem_iff, hmem]

/-- C1: for every previous Snapshot whose keys parse (via `int`) to the
identifier list `P` and every current listing, `get_only_new_entities`
returns exactly the listed entities whose number is not in `P` (the
listed entities with identifier in `C \ P`); in particular an empty `P`
yields the whole listing, and a listing whose identifiers all lie in `P`
yields the empty result. -/
theorem get_only_new_entities_diff {α : Type} [HasNumber α]
    (old_data : Snapshot) (P : List Nat)
    (hP : mapOption pyIntOfKey (old_data.map Prod.fst) = some P)
    (new_data : List α) :
    CBK.get_only_new_entities old_data new_data
      = some (new_data.filter (fun x => !(P.contains (HasNumber.number x))))
    ∧ (P = [] → CBK.get_only_new_entities old_data new_data = some new_data)
    ∧ ((∀ x ∈ new_data, HasNumber.number x ∈ P) →
        CBK.get_only_new_entities old_data new_data = some []) := by
  refine ⟨get_only_new_entities_eq old_data P hP new_data, ?_, ?_⟩
  · rintro rfl
    rw [get_only_new_entities_eq old_data [] hP new_data]
    simp
  · intro hall
    rw [get_only_new_entities_eq old_data P hP new_data]
    simp only [Option.some_inj]
    rw [List.filter_eq_nil_iff]
    intro x hx
    simp [List.elem_iff, hall x hx]

/-- Witness for C1: a previous Snapshot with key `"1"` and a listing of
issues 1 and 2 yield exactly issue 2. -/
theorem get_only_new_entities_diff_witness :
    CBK.get_only_new_entities [(PyKey.str "1", PyVal.int 0)]
      [CBK.mkIssue 1, CBK.mkIssue 2] = some [CBK.mkIssue 2] := by
  have h := (get_only_new_entities_diff [(PyKey.str "1", PyVal.int 0)] [1]
    (by decide) [CBK.mkIssue 1, CBK.mkIssue 2]).1
  rw [h]
  rfl

/-- The size-label loop, characterised through `List.find?`: only the first
label starting with `"size"` is ever examined. -/
theorem get_labeled_size_eq (labels : List String) :
    CBK.get_labeled_size labels =
      match labels.find? (fun l => pyStartsWith "size" l) with
      | Option.none => Except.ok Option.none
      | some l =>
        match (pySplit '/' l)[1]? with
        | some sz => Except.ok (some sz)
        | Option.none => Except.error () := by
  induction labels with
  | nil => rfl
  | cons l rest ih =>
    by_cases h : pyStartsWith "size" l
    · rw [List.find?_cons_of_pos _ h]
      simp [CBK.get_labeled_size, h]
    · rw [List.find?_cons_of_neg _ (by simp [h])]
      simp [CBK.get_labeled_size, h, ih]

/-- C10: `get_labeled_size` returns the piece after the first `'/'` of the
first label starting with `"size"`, returns no size when no label starts
with `"size"`, and raises (`IndexError`) exactly when that first
`"size"`-prefixed label has no `'/'` — as on the inputs `["size"]` and
`["size", "size/L"]`. -/
theorem get_labeled_size_partiality :
    (∀ labels : List String, CBK.get_labeled_size labels =
      match labels.find? (fun l => pyStartsWith "size" l) with
      | Option.none => Except.ok Option.none
      | some l =>
        match (pySplit '/' l)[1]? with
        | some sz => Except.ok (some sz)
        | Option.none => Except.error ())
    ∧ CBK.get_labeled_size ["size"] = Except.error ()
    ∧ CBK.get_labeled_size ["size", "size/L"] = Except.error ()
    ∧ CBK.get_labeled_size ["bug", "size/M"] = Except.ok (some "M") :=
  ⟨get_labeled_size_eq, rfl, rfl, rfl⟩

/-- C2 fails as stated: the standalone filter drops only labels *exactly*
equal to `"size"`, so the size-class label `"size/L"` is kept in the
generic label list, not removed. -/
theorem get_non_standalone_labels_keeps_size_class :
    CBK.get_non_standalone_labels ["bug", "size/L"] ≠ ["bug"] := by
  decide

/-- C2 (amended): label extraction yields the `<SIZE>` piece of the first
well-formed `size`-prefixed label (absent when no label starts with
`"size"`), and a generic label list from which only labels exactly equal to
a member of the standalone set `{"size"}` are removed; in particular
`["bug", "size/L"]` yields size `"L"` with filtered list
`["bug", "size/L"]`, and `["bug"]` yields an absent size. -/
theorem label_extraction (labels : List String) (l sz : String)
    (hfind : labels.find? (fun lb => pyStartsWith "size" lb) = some l)
    (hsz : (pySplit '/' l)[1]? = some sz) :
    CBK.get_labeled_size labels = Except.ok (some sz)
    ∧ (∀ labels2 : List String, (∀ lb ∈ labels2, pyStartsWith "size" lb = false) →
        CBK.get_labeled_size labels2 = Except.ok Option.none)
    ∧ CBK.get_labeled_size ["bug", "size/L"] = Except.ok (some "L")
    ∧ CBK.get_non_standalone_labels ["bug", "size/L"] = ["bug", "size/L"]
    ∧ CBK.get_labeled_size ["bug"] = Except.ok Option.none
    ∧ CBK.get_non_standalone_labels ["bug"] = ["bug"] := by
  refine ⟨?_, ?_, rfl, rfl, rfl, rfl⟩
  · rw [get_labeled_size_eq, hfind]
    show (match (pySplit '/' l)[1]? with
      | some sz => Except.ok (some sz)
      | Option.none => Except.error ()) = Except.ok (some sz)
    rw [hsz]
  · intro labels2 h2
    rw [get_labeled_size_eq]
    have hnone : labels2.find? (fun lb => pyStartsWith "size" lb) = Option.none := by
      rw [List.find?_eq_none]
      intro lb hlb
      simp [h2 lb hlb]
    rw [hnone]

/-- Witness for C2 (amended), at the labels `["bug", "size/L"]`. -/
theorem label_extraction_witness :
    CBK.get_labeled_size ["bug", "size/L"] = Except.ok (some "L") :=
  (label_extraction ["bug", "size/L"] "size/L" "L" rfl rfl).1

/-- One step of the enumerate loop: scanning `w :: rest` contributes the
head token's reference (if any) followed by the scan of `rest`. -/
theorem scan_comment_cons (w : String) (rest : List String) :
    CBK.scan_comment (w :: rest) =
      (if CBK.ISSUE_KEYWORDS.contains (removeColons w) then
        (match rest[0]? with
         | Option.none => []
         | some nxt =>
           if pyStartsWith "https" nxt then [lastSegment nxt] else [])
       else []) ++ CBK.scan_comment rest := by
  unfold CBK.scan_comment
  rw [List.length_cons, List.range_succ_eq_map, List.filterMap_cons, List.filterMap_map]
  have hcomp :
      ((fun idx =>
        match (w :: rest)[idx]? with
        | Option.none => Option.none
        | some word =>
          if CBK.ISSUE_KEYWORDS.contains (removeColons word) then
            match (w :: rest)[idx + 1]? with
            | Option.none => Option.none
            | some nxt =>
              if pyStartsWith "https" nxt then some (lastSegment nxt)
              else Option.none
          else Option.none) ∘ Nat.succ)
      = (fun idx =>
        match rest[idx]? with
        | Option.none => Option.none
        | some word =>
          if CBK.ISSUE_KEYWORDS.contains (removeColons word) then
            match rest[idx + 1]? with
            | Option.none => Option.none
            | some nxt =>
              if pyStartsWith "https" nxt then some (lastSegment nxt)
              else Option.none
          else Option.none) := by
    funext idx
    simp only [Function.comp_apply, List.getElem?_cons_succ]
  rw [hcomp]
  simp only [List.getElem?_cons_zero, List.getElem?_cons_succ]
  cases hk : CBK.ISSUE_KEYWORDS.contains (removeColons w) with
  | false =>
    simp only [hk, Bool.false_eq_true, if_false]
    rfl
  | true =>
    simp only [hk, if_true]
    cases hn : rest[0]? with
    | none => rfl
    | some nxt =>
      cases hs : pyStartsWith "https" nxt with
      | false =>
        simp only [hs, Bool.false_eq_true, if_false]
        rfl
      | true =>
        simp only [hs, if_true]
        rfl

/-- The enumerate loop agrees with the pairwise reading of the scanner. -/
theorem scan_comment_eq_refs_of_tokens (message : List String) :
    CBK.scan_comment message = CBK.refs_of_tokens message := by
  induction message with
  | nil => rfl
  | cons w rest ih =>
    rw [scan_comment_cons, ih]
    cases rest with
    | nil => simp [CBK.refs_of_tokens]
    | cons nxt rest2 =>
      simp only [List.getElem?_cons_zero]
      cases hk : CBK.ISSUE_KEYWORDS.contains (removeColons w) with
      | false =>
        have hk2 : removeColons w ∉ CBK.ISSUE_KEYWORDS := by simpa using hk
        simp [CBK.refs_of_tokens, hk, hk2]
      | true =>
        have hk2 : removeColons w ∈ CBK.ISSUE_KEYWORDS := by simpa using hk
        cases hs : pyStartsWith "https" nxt with
        | false => simp [CBK.refs_of_tokens, hk, hs, hk2]
        | true => simp [CBK.refs_of_tokens, hk, hs, hk2]

/-- A left fold that only appends is a flatten. -/
theorem foldl_append_eq_flatten {α β : Type} (g : α → List β) (l : List α)
    (init : List β) :
    l.foldl (fun acc a => acc ++ g a) init = init ++ (l.map g).flatten := by
  induction l generalizing init with
  | nil => simp
  | cons a l ih => simp [List.foldl_cons, ih]

/-- C3 (amended): the scanner returns, in order of occurrence and without
deduplication, the final path segment of the token following each token
that — with **all colons removed** (the code's `word.replace(':', '')`,
not just a trailing colon) — equals a closing keyword, whenever that next
token exists and begins with `"https"`; a keyword occurrence with a missing
or non-`"https"` next token contributes nothing and scanning continues.
The three concrete examples of the claim behave as stated. -/
theorem get_referenced_issues_spec (pr : PullRequest) :
    CBK.get_referenced_issues pr
      = (pr.comments.map (fun c => CBK.refs_of_tokens (pySplit ' ' c.body))).flatten
    ∧ CBK.get_referenced_issues (CBK.mkPR ["this closes: https://x/y/42"]) = ["42"]
    ∧ CBK.get_referenced_issues (CBK.mkPR ["fix coming soon"]) = []
    ∧ CBK.get_referenced_issues
        (CBK.mkPR ["fixes https://x/y/7 and closes https://x/y/9"]) = ["7", "9"] := by
  refine ⟨?_, rfl, rfl, rfl⟩
  unfold CBK.get_referenced_issues
  rw [foldl_append_eq_flatten]
  simp [scan_comment_eq_refs_of_tokens]

/-- C3 fails as stated: `word.replace(':', '')` removes interior colons
too, so the token `"fi:x"` matches the keyword `"fix"` and the code
extracts a reference where the claim (stripping only a trailing colon)
says none is extracted. -/
theorem get_referenced_issues_colon_cex :
    CBK.get_referenced_issues (CBK.mkPR ["fi:x https://x/y/5"]) = ["5"]
    ∧ CBK.spec_scan_bodies ["fi:x https://x/y/5"] = []
    ∧ (["5"] : List String) ≠ [] := by
  exact ⟨rfl, rfl, by decide⟩


theorem authorWeight_cons (c : Comment) (cs : List Comment) (a : String) :
    CBK.authorWeight (c :: cs) a =
      (if c.user.login = a then (pySplit ' ' c.body).length else 0)
        + CBK.authorWeight cs a := by
  unfold CBK.authorWeight
  rw [List.filter_cons]
  by_cases h : c.user.login = a
  · simp [h]
  · simp [h]

theorem interactions_init_lookup (comments : List Comment) :
    ∀ (d : List (String × Nat)) (a : String),
      dlookup (comments.foldl (fun d c => dictInsert d c.user.login 0) d) a
        = if a ∈ comments.map (fun c => c.user.login) then some 0 else dlookup d a := by
  induction comments with
  | nil => intro d a; simp
  | cons c cs ih =>
    intro d a
    rw [List.foldl_cons, ih]
    by_cases hm : a ∈ cs.map (fun c => c.user.login)
    · simp [hm]
    · rw [if_neg hm]
      by_cases ha : a = c.user.login
      · subst ha
        rw [dlookup_dictInsert_self]
        simp
      · rw [dlookup_dictInsert_ne _ _ _ _ ha]
        have : a ∉ (c :: cs).map (fun c => c.user.login) := by
          rw [List.map_cons, List.mem_cons]
          rintro (h | h)
          · exact ha h
          · exact hm h
        rw [if_neg this]

theorem interactions_incr_lookup (comments : List Comment) :
    ∀ (d : List (String × Nat)) (a : String),
      dlookup (comments.foldl
          (fun d c => CBK.dictIncr d c.user.login (pySplit ' ' c.body).length) d) a
        = (dlookup d a).map (fun v => v + CBK.authorWeight comments a) := by
  induction comments with
  | nil =>
    intro d a
    simp only [List.foldl_nil]
    cases dlookup d a <;> simp [CBK.authorWeight]
  | cons c cs ih =>
    intro d a
    rw [List.foldl_cons, ih, authorWeight_cons]
    by_cases ha : c.user.login = a
    · subst ha
      cases hv : dlookup d c.user.login with
      | none =>
        unfold CBK.dictIncr
        rw [hv]
        simp [hv]
      | some v =>
        unfold CBK.dictIncr
        rw [hv, dlookup_dictInsert_self]
        simp [Nat.add_assoc]
    · have hkeep : dlookup
          (CBK.dictIncr d c.user.login (pySplit ' ' c.body).length) a = dlookup d a := by
        unfold CBK.dictIncr
        cases hv : dlookup d c.user.login with
        | none => rfl
        | some v => exact dlookup_dictInsert_ne _ _ _ _ (fun h => ha h.symm)
      rw [hkeep, if_neg ha]
      cases dlookup d a <;> simp

/-- C8 (amended): `get_interactions` maps each comment author to the total
token count of their comments, where each body is tokenized by
`body.split(' ')` — splitting on **single space characters**, keeping empty
tokens (not on arbitrary whitespace) — and authors with no comment in the
sequence are absent from the mapping; the claim's concrete example
(`"hi there"` by A, `"ok"` by B, yielding A ↦ 2 and B ↦ 1) behaves as
stated. -/
theorem get_interactions_spec (comments : List Comment) (a : String) :
    dlookup (CBK.get_interactions comments) a
      = (if a ∈ comments.map (fun c => c.user.login)
         then some (CBK.authorWeight comments a) else Option.none)
    ∧ CBK.get_interactions [⟨⟨"A"⟩, "hi there"⟩, ⟨⟨"B"⟩, "ok"⟩]
      = [("A", 2), ("B", 1)] := by
  constructor
  · show dlookup (comments.foldl
        (fun d c => CBK.dictIncr d c.user.login (pySplit ' ' c.body).length)
        (comments.foldl (fun d c => dictInsert d c.user.login 0) [])) a = _
    rw [interactions_incr_lookup, interactions_init_lookup]
    by_cases hm : a ∈ comments.map (fun c => c.user.login)
    · simp [hm]
    · simp [hm, dlookup]
  · rfl

/-- C8 fails as stated: the body `"hi  there"` (two spaces) has 3 tokens
under the code's `split(' ')` but only 2 whitespace-delimited words, so the
mapping the claim describes (word count by whitespace splitting) differs
from what the code computes. -/
theorem get_interactions_whitespace_cex :
    CBK.get_interactions [⟨⟨"A"⟩, "hi  there"⟩] = [("A", 3)]
    ∧ CBK.whitespace_word_count "hi  there" = 2
    ∧ CBK.get_interactions [⟨⟨"A"⟩, "hi  there"⟩]
        ≠ [("A", CBK.whitespace_word_count "hi  there")] := by
  exact ⟨rfl, rfl, by decide⟩

/-- A stored issue either is skipped (it was a pull request) or inserts
exactly one binding, under the integer key `issue.number`. -/
theorem store_issue_eq (i : Issue) (d : Snapshot) :
    CBK.store_issue i d = d ∨
    ∃ v, CBK.store_issue i d = dictInsert d (PyKey.int i.number) v := by
  unfold CBK.store_issue
  cases h : i.pull_request.isSome with
  | true => left; simp [h]
  | false =>
    right
    simp only [h, Bool.false_eq_true, if_false]
    exact ⟨_, rfl⟩

theorem store_issue_str_lookup (i : Issue) (d : Snapshot) (s : String) :
    dlookup (CBK.store_issue i d) (PyKey.str s) = dlookup d (PyKey.str s) := by
  rcases store_issue_eq i d with heq | ⟨v, heq⟩
  · rw [heq]
  · rw [heq]
    exact dlookup_dictInsert_ne _ _ _ _ (by simp)

theorem store_issues_str_lookup (is : List Issue) : ∀ (d : Snapshot) (s : String),
    dlookup (CBK.store_issues is d) (PyKey.str s) = dlookup d (PyKey.str s) := by
  induction is with
  | nil => intro d s; rfl
  | cons i rest ih =>
    intro d s
    show dlookup (CBK.store_issues rest (CBK.store_issue i d)) _ = _
    rw [ih, store_issue_str_lookup]

theorem store_issues_append (is : List Issue) : ∀ (d₀ r : Snapshot),
    (∀ p ∈ d₀, ∃ s, p.1 = PyKey.str s) →
    ∃ r2, CBK.store_issues is (d₀ ++ r) = d₀ ++ r2 := by
  induction is with
  | nil => intro d₀ r _; exact ⟨r, rfl⟩
  | cons i rest ih =>
    intro d₀ r h
    show ∃ r2, CBK.store_issues rest (CBK.store_issue i (d₀ ++ r)) = d₀ ++ r2
    rcases store_issue_eq i (d₀ ++ r) with heq | ⟨v, heq⟩
    · rw [heq]; exact ih d₀ r h
    · rw [heq, dictInsert_append_of_fresh d₀ r _ _ (fun p hp => by
        obtain ⟨s, hs⟩ := h p hp
        simp [hs])]
      exact ih d₀ _ h

/-- A successfully stored pull request inserts exactly one binding, under
the string key `str(pull.number)`. -/
theorem store_pullrequest_eq (p : PullRequest) (d d2 : Snapshot)
    (h : CBK.store_pullrequest p d = .ok d2) :
    ∃ v, d2 = dictInsert d (PyKey.str (pyStrOfNat p.number)) v := by
  simp only [CBK.store_pullrequest] at h
  cases hsz : CBK.get_labeled_size p.labels with
  | error e => rw [hsz] at h; exact absurd h (by simp)
  | ok size =>
    rw [hsz] at h
    simp only [Except.ok.injEq] at h
    exact ⟨_, h.symm⟩

theorem store_pullrequests_frame (ps : List PullRequest) :
    ∀ (d₀ r merged : Snapshot),
      (∀ q ∈ ps, ∀ p0 ∈ d₀, p0.1 ≠ PyKey.str (pyStrOfNat q.number)) →
      CBK.store_pullrequests ps (d₀ ++ r) = .ok merged →
      (∃ r2, merged = d₀ ++ r2)
      ∧ ∀ κ, (∀ q ∈ ps, κ ≠ PyKey.str (pyStrOfNat q.number)) →
          dlookup merged κ = dlookup (d₀ ++ r) κ := by
  induction ps with
  | nil =>
    intro d₀ r merged _ h
    have : merged = d₀ ++ r := by
      simpa [CBK.store_pullrequests] using h.symm
    subst this
    exact ⟨⟨r, rfl⟩, fun κ _ => rfl⟩
  | cons q rest ih =>
    intro d₀ r merged hfresh hrun
    have hfr : ∀ p0 ∈ d₀, p0.1 ≠ PyKey.str (pyStrOfNat q.number) :=
      hfresh q (List.mem_cons_self q rest)
    unfold CBK.store_pullrequests at hrun
    cases hq : CBK.store_pullrequest q (d₀ ++ r) with
    | error e => rw [hq] at hrun; exact absurd hrun (by simp)
    | ok d2 =>
      rw [hq] at hrun
      obtain ⟨v, hv⟩ := store_pullrequest_eq q _ _ hq
      have hd2 : d2 = d₀ ++ dictInsert r (PyKey.str (pyStrOfNat q.number)) v := by
        rw [hv]
        exact dictInsert_append_of_fresh d₀ r _ _ hfr
      rw [hd2] at hrun
      obtain ⟨⟨r2, hr2⟩, hlook⟩ := ih d₀ _ merged
        (fun q' hq' => hfresh q' (List.mem_cons_of_mem q hq')) hrun
      refine ⟨⟨r2, hr2⟩, ?_⟩
      intro κ hκ
      rw [hlook κ (fun q' hq' => hκ q' (List.mem_cons_of_mem q hq'))]
      rw [← dictInsert_append_of_fresh d₀ r _ _ hfr]
      exact dlookup_dictInsert_ne _ _ _ _ (hκ q (List.mem_cons_self q rest))

/-- Entities surviving the diff have numbers outside `P`, so (by the
decimal round trip) their string keys differ from every loaded key. -/
theorem new_pulls_fresh
    (loaded : Snapshot) (P : List Nat)
    (hP : mapOption pyIntOfKey (loaded.map Prod.fst) = some P)
    (listing new_pulls : List PullRequest)
    (hnew : CBK.get_only_new_entities loaded listing = some new_pulls) :
    ∀ q ∈ new_pulls, ∀ p0 ∈ loaded, p0.1 ≠ PyKey.str (pyStrOfNat q.number) := by
  intro q hq p0 hp0 hcon
  rw [get_only_new_entities_eq loaded P hP listing, Option.some_inj] at hnew
  rw [← hnew, List.mem_filter] at hq
  have hnotP : q.number ∉ P := by
    intro hmem
    have h2 := hq.2
    rw [show (HasNumber.number q : Nat) = q.number from rfl] at h2
    have h3 : P.contains q.number = true := List.elem_iff.2 hmem
    rw [h3] at h2
    simp at h2
  obtain ⟨b, hbP, hb⟩ :=
    mapOption_eq_some pyIntOfKey hP p0.1 (List.mem_map_of_mem _ hp0)
  rw [hcon] at hb
  rw [show pyIntOfKey (PyKey.str (pyStrOfNat q.number))
      = pyIntOfString (pyStrOfNat q.number) from rfl,
    pyIntOfString_pyStrOfNat, Option.some_inj] at hb
  exact hnotP (hb ▸ hbP)

/-- C4: in every sync cycle the merged Snapshot handed to `save_knowledge`
is a superset of the loaded one.  For the issue cycle the loaded dict is a
prefix of `store_issues new_issues loaded` and the record under every
loaded key is unchanged (new records go under `int` keys while loaded keys
are strings); for the pull-request cycle, with the new entities produced by
`get_only_new_entities`, the successfully merged dict likewise extends the
loaded dict and no loaded key's record is overwritten. -/
theorem merged_snapshot_superset
    (loaded : Snapshot)
    (hstr : ∀ p ∈ loaded, ∃ s, p.1 = PyKey.str s)
    (new_issues : List Issue)
    (P : List Nat)
    (hP : mapOption pyIntOfKey (loaded.map Prod.fst) = some P)
    (listing new_pulls : List PullRequest)
    (hnew : CBK.get_only_new_entities loaded listing = some new_pulls)
    (merged_pulls : Snapshot)
    (hmerge : CBK.store_pullrequests new_pulls loaded = .ok merged_pulls) :
    ((∃ rest, CBK.store_issues new_issues loaded = loaded ++ rest)
      ∧ ∀ p ∈ loaded,
          dlookup (CBK.store_issues new_issues loaded) p.1 = dlookup loaded p.1)
    ∧ ((∃ rest, merged_pulls = loaded ++ rest)
      ∧ ∀ p ∈ loaded, dlookup merged_pulls p.1 = dlookup loaded p.1) := by
  constructor
  · constructor
    · have h := store_issues_append new_issues loaded [] hstr
      simpa using h
    · intro p hp
      obtain ⟨s, hs⟩ := hstr p hp
      rw [hs, store_issues_str_lookup]
  · have hfresh := new_pulls_fresh loaded P hP listing new_pulls hnew
    have hmerge2 : CBK.store_pullrequests new_pulls (loaded ++ []) = .ok merged_pulls := by
      rw [List.append_nil]
      exact hmerge
    obtain ⟨⟨r2, hr2⟩, hlook⟩ :=
      store_pullrequests_frame new_pulls loaded [] merged_pulls hfresh hmerge2
    constructor
    · exact ⟨r2, by simpa using hr2⟩
    · intro p hp
      have h := hlook p.1 (fun q hq => hfresh q hq p hp)
      rw [h, List.append_nil]

/-- Witness for C4: with loaded Snapshot `{"1": 0}`, one new issue (number
2) and one new pull request (number 2), the record under the loaded key
`"1"` is unchanged in the merged issue Snapshot. -/
theorem merged_snapshot_superset_witness :
    dlookup (CBK.store_issues [CBK.mkIssue 2] [(PyKey.str "1", PyVal.int 0)])
      (PyKey.str "1") = some (PyVal.int 0) := by
  have h := (merged_snapshot_superset [(PyKey.str "1", PyVal.int 0)]
    (by intro p hp; rw [List.mem_singleton] at hp; exact ⟨"1", by rw [hp]⟩)
    [CBK.mkIssue 2] [1] rfl [CBK.mkPull 2] [CBK.mkPull 2] rfl
    ((CBK.store_pullrequests [CBK.mkPull 2]
      [(PyKey.str "1", PyVal.int 0)]).toOption.getD []) rfl).1.2
  have h1 := h (PyKey.str "1", PyVal.int 0) (List.mem_singleton.2 rfl)
  rw [h1]
  rfl

theorem mem_keys_dictInsert_self {κ ν : Type} [DecidableEq κ]
    (d : List (κ × ν)) (k : κ) (v : ν) :
    k ∈ (dictInsert d k v).map Prod.fst := by
  induction d with
  | nil => simp [dictInsert]
  | cons p rest ih =>
    by_cases h : p.1 = k
    · simp [dictInsert, h]
    · simp [dictInsert, h, ih]

theorem store_issue_eq_insert (i : Issue) (d : Snapshot)
    (h : i.pull_request = Option.none) :
    ∃ v, CBK.store_issue i d = dictInsert d (PyKey.int i.number) v := by
  unfold CBK.store_issue
  rw [h]
  simp only [Option.isSome_none, Bool.false_eq_true, if_false]
  exact ⟨_, rfl⟩

theorem keys_store_issues_mono (is : List Issue) : ∀ (d : Snapshot) (k : PyKey),
    k ∈ d.map Prod.fst → k ∈ (CBK.store_issues is d).map Prod.fst := by
  induction is with
  | nil => intro d k h; exact h
  | cons i rest ih =>
    intro d k h
    show k ∈ (CBK.store_issues rest (CBK.store_issue i d)).map Prod.fst
    apply ih
    rcases store_issue_eq i d with heq | ⟨v, heq⟩
    · rw [heq]; exact h
    · rw [heq]; exact mem_keys_dictInsert _ _ _ _ h

theorem int_key_mem_store_issues (is : List Issue) : ∀ (d : Snapshot) (i : Issue),
    i ∈ is → i.pull_request = Option.none →
    PyKey.int i.number ∈ (CBK.store_issues is d).map Prod.fst := by
  induction is with
  | nil => intro d i h _; simp at h
  | cons j rest ih =>
    intro d i hmem hprn
    rcases List.mem_cons.1 hmem with rfl | hmem2
    · show PyKey.int i.number ∈ (CBK.store_issues rest (CBK.store_issue i d)).map Prod.fst
      apply keys_store_issues_mono
      obtain ⟨v, hv⟩ := store_issue_eq_insert i d hprn
      rw [hv]
      exact mem_keys_dictInsert_self _ _ _
    · exact ih _ i hmem2 hprn

/-- Saving and reloading through the local file: the file holds
`{"results": data}` with every Snapshot key rendered as a string. -/
theorem cbk_save_load (w : CBK.World) (path : String) (data : Snapshot) :
    CBK.load_previous_knowledge (CBK.save_knowledge w path data) path
      = .ok (encodeSnap data) := by
  simp only [CBK.save_knowledge, CBK.load_previous_knowledge]
  rw [dlookup_dictInsert_self]
  simp [dlookup]

theorem int_key_not_mem_encodeSnap (d : Snapshot) (n : Nat) :
    PyKey.int n ∉ (encodeSnap d).map Prod.fst := by
  intro h
  simp [encodeSnap] at h

/-- C9: `store_issue` keys records by the integer `issue.number` while
`store_pullrequest` keys by the string `str(pull.number)`; hence a cycle
that stores at least one new issue produces an in-memory issue Snapshot
with an integer key, `json.dump` renders that key as a decimal string, and
the Snapshot read back after `save_knowledge` is not key-identical to the
in-memory merged Snapshot: the integer key is present in memory but absent
from the reloaded dict. -/
theorem issue_snapshot_keys_mismatch
    (loaded : Snapshot) (new_issues : List Issue) (i : Issue)
    (hmem : i ∈ new_issues) (hpr : i.pull_request = Option.none)
    (w : CBK.World) (path : String) :
    (∀ (j : Issue) (d : Snapshot), j.pull_request = Option.none →
      PyKey.int j.number ∈ (CBK.store_issue j d).map Prod.fst)
    ∧ (∀ (q : PullRequest) (d d2 : Snapshot), CBK.store_pullrequest q d = .ok d2 →
      PyKey.str (pyStrOfNat q.number) ∈ d2.map Prod.fst)
    ∧ PyKey.int i.number ∈ (CBK.store_issues new_issues loaded).map Prod.fst
    ∧ CBK.load_previous_knowledge
        (CBK.save_knowledge w path (CBK.store_issues new_issues loaded)) path
      = .ok (encodeSnap (CBK.store_issues new_issues loaded))
    ∧ PyKey.int i.number
        ∉ (encodeSnap (CBK.store_issues new_issues loaded)).map Prod.fst := by
  refine ⟨?_, ?_, ?_, cbk_save_load w path _, int_key_not_mem_encodeSnap _ _⟩
  · intro j d hj
    obtain ⟨v, hv⟩ := store_issue_eq_insert j d hj
    rw [hv]
    exact mem_keys_dictInsert_self _ _ _
  · intro q d d2 h
    obtain ⟨v, hv⟩ := store_pullrequest_eq q d d2 h
    rw [hv]
    exact mem_keys_dictInsert_self _ _ _
  · exact int_key_mem_store_issues new_issues loaded i hmem hpr

/-- Witness for C9: storing issue 2 into an empty Snapshot puts the integer
key 2 in memory, and the reloaded Snapshot no longer carries it. -/
theorem issue_snapshot_keys_mismatch_witness :
    PyKey.int 2 ∈ (CBK.store_issues [CBK.mkIssue 2] []).map Prod.fst
    ∧ PyKey.int 2
        ∉ (encodeSnap (CBK.store_issues [CBK.mkIssue 2] [])).map Prod.fst := by
  have h := issue_snapshot_keys_mismatch [] [CBK.mkIssue 2] (CBK.mkIssue 2)
    (List.mem_singleton.2 rfl) rfl ⟨[], [], []⟩ "proj/issues.json"
  exact ⟨h.2.2.1, h.2.2.2.2⟩

theorem encodeSnap_strSnap (S : List (String × PyVal)) :
    encodeSnap (strSnap S) = strSnap S := by
  unfold encodeSnap strSnap
  rw [List.map_map]
  apply List.map_congr_left
  intro p hp
  rfl

/-- C5: `save_knowledge` followed by `load_previous_knowledge` of the same
path on the same backend (local file when `is_local`, object store
otherwise) returns a Snapshot deep-equal to the JSON-compatible Snapshot
that was saved. -/
theorem save_load_roundtrip
    (b : Bool) (w : CBK.World) (path project_name kt fn : String)
    (S : List (String × PyVal))
    (hkt : dlookup KS.FILENAME_ENTITY kt = some fn)
    (_hS : ∀ p ∈ S, JsonCompatible p.2) :
    KS.load_previous_knowledge ⟨b⟩ (KS.save_knowledge ⟨b⟩ w path (strSnap S))
      project_name (some path) kt
      = .ok (PyVal.dict (strSnap S)) := by
  simp only [KS.save_knowledge, KS.load_previous_knowledge]
  rw [hkt]
  cases b with
  | false =>
    simp only [Bool.not_false, if_true, KS.load_remotely]
    rw [dlookup_dictInsert_self, encodeSnap_strSnap]
    simp [dlookup]
  | true =>
    simp only [Bool.not_true, Bool.false_eq_true, if_false, KS.load_locally]
    rw [dlookup_dictInsert_self, encodeSnap_strSnap]
    simp [dlookup]

/-- Witness for C5: the Snapshot `{"1": 7}` survives a save/load round trip
on both backends. -/
theorem save_load_roundtrip_witness :
    KS.load_previous_knowledge ⟨true⟩
      (KS.save_knowledge ⟨true⟩ ⟨[], [], []⟩ "proj/issues.json"
        (strSnap [("1", PyVal.int 7)]))
      "proj" (some "proj/issues.json") "Issue"
      = .ok (PyVal.dict (strSnap [("1", PyVal.int 7)]))
    ∧ KS.load_previous_knowledge ⟨false⟩
      (KS.save_knowledge ⟨false⟩ ⟨[], [], []⟩ "proj/issues.json"
        (strSnap [("1", PyVal.int 7)]))
      "proj" (some "proj/issues.json") "Issue"
      = .ok (PyVal.dict (strSnap [("1", PyVal.int 7)])) := by
  have hS : ∀ p ∈ [("1", PyVal.int 7)], JsonCompatible p.2 := by
    intro p hp
    rw [List.mem_singleton] at hp
    rw [hp]
    exact JsonCompatible.int 7
  exact ⟨save_load_roundtrip true ⟨[], [], []⟩ "proj/issues.json" "proj" "Issue"
      "issues" [("1", PyVal.int 7)] rfl hS,
    save_load_roundtrip false ⟨[], [], []⟩ "proj/issues.json" "proj" "Issue"
      "issues" [("1", PyVal.int 7)] rfl hS⟩

/-- C6: each not-found condition on load — missing local file, zero-length
local file, or a NotFound response from the object store — makes
`load_previous_knowledge` return the empty Snapshot inside `Except.ok`:
no error is raised or propagated in any of the three cases. -/
theorem load_previous_knowledge_not_found
    (w : CBK.World) (project_name kt fn path : String)
    (hkt : dlookup KS.FILENAME_ENTITY kt = some fn) :
    (dlookup w.files path = Option.none →
      KS.load_previous_knowledge ⟨true⟩ w project_name (some path) kt
        = .ok (PyVal.dict []))
    ∧ (dlookup w.files path = some CBK.FileState.empty →
      KS.load_previous_knowledge ⟨true⟩ w project_name (some path) kt
        = .ok (PyVal.dict []))
    ∧ (dlookup w.ceph (KS.ceph_filename path) = Option.none →
      KS.load_previous_knowledge ⟨false⟩ w project_name (some path) kt
        = .ok (PyVal.dict [])) := by
  refine ⟨?_, ?_, ?_⟩
  · intro h
    simp only [KS.load_previous_knowledge, hkt]
    simp only [Bool.not_true, Bool.false_eq_true, if_false, KS.load_locally]
    rw [h]
  · intro h
    simp only [KS.load_previous_knowledge, hkt]
    simp only [Bool.not_true, Bool.false_eq_true, if_false, KS.load_locally]
    rw [h]
  · intro h
    simp only [KS.load_previous_knowledge, hkt]
    simp only [Bool.not_false, if_true, KS.load_remotely]
    rw [h]

/-- Witness for C6: on an empty world, a local load, a load of a
zero-length file, and a remote load all return the empty Snapshot. -/
theorem load_previous_knowledge_not_found_witness :
    KS.load_previous_knowledge ⟨true⟩ ⟨[], [], []⟩ "proj"
      (some "proj/issues.json") "Issue" = .ok (PyVal.dict [])
    ∧ KS.load_previous_knowledge ⟨true⟩
        ⟨[("proj/issues.json", CBK.FileState.empty)], [], []⟩ "proj"
        (some "proj/issues.json") "Issue" = .ok (PyVal.dict [])
    ∧ KS.load_previous_knowledge ⟨false⟩ ⟨[], [], []⟩ "proj"
      (some "proj/issues.json") "PullRequest" = .ok (PyVal.dict []) := by
  refine ⟨?_, ?_, ?_⟩
  · exact (load_previous_knowledge_not_found ⟨[], [], []⟩ "proj" "Issue" "issues"
      "proj/issues.json" rfl).1 rfl
  · exact (load_previous_knowledge_not_found
      ⟨[("proj/issues.json", CBK.FileState.empty)], [], []⟩ "proj" "Issue"
      "issues" "proj/issues.json" rfl).2.1 rfl
  · exact (load_previous_knowledge_not_found ⟨[], [], []⟩ "proj" "PullRequest"
      "pull_requests" "proj/issues.json" rfl).2.2 rfl

/-- C7: a sync cycle whose computed new-entity set is empty returns with
the world unchanged — in particular the write journal is unchanged, so
`save_knowledge` was never invoked and the persisted Snapshot for that
project and entity kind is untouched. -/
theorem empty_new_set_no_save
    (w : CBK.World) (pk : String)
    (issues : List Issue) (pulls : List PullRequest)
    (idata pdata : Snapshot)
    (hiload : CBK.load_previous_knowledge w (pk ++ "/issues.json") = .ok idata)
    (hinew : CBK.get_only_new_entities idata
      (issues.filter (fun issue => issue.pull_request.isNone)) = some [])
    (hpload : CBK.load_previous_knowledge w (pk ++ "/pull_requests.json") = .ok pdata)
    (hpnew : CBK.get_only_new_entities pdata pulls = some []) :
    CBK.analyse_issues w pk issues = .ok w
    ∧ CBK.analyse_pullrequests w pk pulls = .ok w := by
  constructor
  · simp only [CBK.analyse_issues]
    rw [hiload]
    simp [hinew]
  · simp only [CBK.analyse_pullrequests]
    rw [hpload]
    simp [hpnew]

/-- Witness for C7: an empty listing over an empty world changes nothing. -/
theorem empty_new_set_no_save_witness :
    CBK.analyse_issues ⟨[], [], []⟩ "proj" [] = .ok ⟨[], [], []⟩
    ∧ CBK.analyse_pullrequests ⟨[], [], []⟩ "proj" [] = .ok ⟨[], [], []⟩ :=
  empty_new_set_no_save ⟨[], [], []⟩ "proj" [] [] [] [] rfl rfl rfl rfl
